import Mathlib

/-
Verification development for the sdiff repository.

Embedded from the sources:
  - src/git.rs   : git diff-driver detection, hash validation, null-file
                   sentinels, and the config set/unset operations (external
                   process execution is modelled by an explicit oracle from
                   the argument list of the spawned git process to its
                   observed output).
  - src/diff.rs  : ChangeType, Change, DiffStats, Diff, ArrayDiffStrategy,
                   DiffConfig and its Default impl.
  - src/output.rs: OutputOptions and its Default impl.

The body of compute_diff in src/diff.rs is a placeholder and the Node type
(crate::tree) is not among the sources, so the Value Tree and the diff
algorithm are modelled from the specification (sections 3 and 4.2); those
definitions carry a doc comment starting with "Modelled from the spec".
-/

/-- Modelled from the spec: the numeric payload of a Number node
(crate::tree is missing from the sources); it must preserve enough
precision to distinguish integers from floats, and numeric equality is
value-based. Floats are represented as a scaled decimal mantissa/exponent
pair. -/
inductive Numeric where
  | int (i : Int) : Numeric
  | float (mantissa : Int) (exponent : Int) : Numeric
  deriving DecidableEq

/-- Modelled from the spec: the Value Tree (crate::tree::Node is missing
from the sources) — a closed recursive sum with variants Null, Bool,
Number, String, Array (ordered sequence) and Object (key-to-node mapping,
keys unique, insertion order preserved). -/
inductive Node where
  | null : Node
  | bool (b : Bool) : Node
  | number (n : Numeric) : Node
  | string (s : String) : Node
  | array (xs : List Node) : Node
  | object (fields : List (String × Node)) : Node

/-- The type of change that occurred (src/diff.rs, enum ChangeType). -/
inductive ChangeType where
  | Added : ChangeType
  | Removed : ChangeType
  | Modified : ChangeType
  | Unchanged : ChangeType
  deriving DecidableEq

/-- A single change in the diff (src/diff.rs, struct Change). -/
structure Change where
  path : List String
  change_type : ChangeType
  old_value : Option Node
  new_value : Option Node

/-- Statistics about the diff (src/diff.rs, struct DiffStats). -/
structure DiffStats where
  added : Nat
  removed : Nat
  modified : Nat
  unchanged : Nat
  deriving DecidableEq

/-- The complete diff result (src/diff.rs, struct Diff). -/
structure Diff where
  changes : List Change
  stats : DiffStats

/-- Strategy for comparing arrays (src/diff.rs, enum ArrayDiffStrategy). -/
inductive ArrayDiffStrategy where
  | Positional : ArrayDiffStrategy
  deriving DecidableEq

/-- Configuration for the diff algorithm (src/diff.rs, struct DiffConfig). -/
structure DiffConfig where
  ignore_whitespace : Bool
  treat_null_as_missing : Bool
  array_diff_strategy : ArrayDiffStrategy

/-- The Default impl for DiffConfig (src/diff.rs lines 74-82). -/
def DiffConfig.default : DiffConfig :=
  { ignore_whitespace := false
  , treat_null_as_missing := false
  , array_diff_strategy := ArrayDiffStrategy.Positional }

/-- Options for controlling output formatting (src/output.rs, struct
OutputOptions). -/
structure OutputOptions where
  compact : Bool
  show_values : Bool
  max_value_length : Nat
  context_lines : Nat

/-- The Default impl for OutputOptions (src/output.rs lines 33-42). -/
def OutputOptions.default : OutputOptions :=
  { compact := true
  , show_values := false
  , max_value_length := 80
  , context_lines := 0 }

/-- Splits a character list into its maximal whitespace-free words; the
second argument accumulates the current word in reverse. -/
def splitWsWords : List Char → List Char → List String
  | [], acc => if acc.isEmpty then [] else [String.mk acc.reverse]
  | c :: cs, acc =>
    if c.isWhitespace then
      if acc.isEmpty then splitWsWords cs []
      else String.mk acc.reverse :: splitWsWords cs []
    else splitWsWords cs (c :: acc)

/-- Modelled from the spec: whitespace normalization for string comparison —
collapse each maximal run of whitespace to a single space and trim leading
and trailing whitespace (spec section 3, ignore_whitespace); realized by
joining the whitespace-separated words of the string with single spaces. -/
def normalizeWs (s : String) : String :=
  " ".intercalate (splitWsWords s.data [])

/-- Modelled from the spec: string equality under the configuration —
normalize both sides first when ignore_whitespace is set. -/
def stringsEqual (config : DiffConfig) (a b : String) : Bool :=
  if config.ignore_whitespace then decide (normalizeWs a = normalizeWs b)
  else decide (a = b)

/-- First-match association-list lookup; the spec object is a key-to-node
mapping with unique keys and insertion order preserved, represented here as
an ordered field list. -/
def listLookup : List (String × Node) → String → Option Node
  | [], _ => none
  | (k, v) :: rest, key => if k = key then some v else listLookup rest key

/-- Whether a node is the Null variant. -/
def Node.isNull : Node → Bool
  | Node.null => true
  | _ => false

/-- Modelled from the spec: positional array comparison — every index
beyond the old array length is reported as one atomic Added change for the
element at that index (spec section 4.2, Array case). -/
def remainingAdded (path : List String) : Nat → List Node → List Change
  | _, [] => []
  | i, y :: ys =>
    { path := path ++ [toString i], change_type := ChangeType.Added
    , old_value := none, new_value := some y } :: remainingAdded path (i + 1) ys

/-- Modelled from the spec: second phase of the object traversal — the new
object keys in insertion order, emitting one atomic Added change for each
key absent from the old object, skipping keys already visited in the first
phase; under treat_null_as_missing a Null value on the new side with the
key absent from the old side is emitted as Unchanged (spec section 4.2,
Object case). -/
def diffNew (config : DiffConfig) (path : List String) :
    List (String × Node) → List (String × Node) → List Change
  | [], _ => []
  | (k, w) :: rest, fo =>
    (if (listLookup fo k).isSome then []
     else if config.treat_null_as_missing && w.isNull then
       [{ path := path ++ [k], change_type := ChangeType.Unchanged
        , old_value := some Node.null, new_value := some Node.null }]
     else
       [{ path := path ++ [k], change_type := ChangeType.Added
        , old_value := none, new_value := some w }])
      ++ diffNew config path rest fo

mutual

/-- Modelled from the spec: the recursive path-accumulating comparison of
two present nodes (spec section 4.2). Scalars of the same variant compare
by value (strings under the configured normalization); matching arrays
compare positionally; matching objects traverse the union of keys in
insertion-order-biased order; nodes of different variants yield a single
Modified change at the current path with both full values attached. -/
def diffBoth (config : DiffConfig) (path : List String) : Node → Node → List Change
  | Node.null, Node.null =>
    [{ path := path, change_type := ChangeType.Unchanged
     , old_value := some Node.null, new_value := some Node.null }]
  | Node.bool a, Node.bool b =>
    if a = b then
      [{ path := path, change_type := ChangeType.Unchanged
       , old_value := some (Node.bool a), new_value := some (Node.bool b) }]
    else
      [{ path := path, change_type := ChangeType.Modified
       , old_value := some (Node.bool a), new_value := some (Node.bool b) }]
  | Node.number a, Node.number b =>
    if a = b then
      [{ path := path, change_type := ChangeType.Unchanged
       , old_value := some (Node.number a), new_value := some (Node.number b) }]
    else
      [{ path := path, change_type := ChangeType.Modified
       , old_value := some (Node.number a), new_value := some (Node.number b) }]
  | Node.string a, Node.string b =>
    if stringsEqual config a b then
      [{ path := path, change_type := ChangeType.Unchanged
       , old_value := some (Node.string a), new_value := some (Node.string b) }]
    else
      [{ path := path, change_type := ChangeType.Modified
       , old_value := some (Node.string a), new_value := some (Node.string b) }]
  | Node.array xs, Node.array ys => diffArr config path 0 xs ys
  | Node.object fo, Node.object fn =>
    diffOld config path fo fn ++ diffNew config path fn fo
  | o, n =>
    [{ path := path, change_type := ChangeType.Modified
     , old_value := some o, new_value := some n }]

/-- Modelled from the spec: positional array comparison, index by index up
to the longer length; an index present on only one side is one atomic
Added or Removed change (spec section 4.2, Array case). -/
def diffArr (config : DiffConfig) (path : List String) :
    Nat → List Node → List Node → List Change
  | _, [], [] => []
  | i, [], ys => remainingAdded path i ys
  | i, x :: xs, [] =>
    { path := path ++ [toString i], change_type := ChangeType.Removed
    , old_value := some x, new_value := none } :: diffArr config path (i + 1) xs []
  | i, x :: xs, y :: ys =>
    diffBoth config (path ++ [toString i]) x y ++ diffArr config path (i + 1) xs ys

/-- Modelled from the spec: first phase of the object traversal — the old
object keys in insertion order, recursing on keys shared with the new
object and emitting one atomic Removed change for keys absent from it;
under treat_null_as_missing a Null value whose key is absent from the new
side is emitted as Unchanged (spec section 4.2, Object case). -/
def diffOld (config : DiffConfig) (path : List String) :
    List (String × Node) → List (String × Node) → List Change
  | [], _ => []
  | (k, v) :: rest, fn =>
    (match listLookup fn k with
     | some w => diffBoth config (path ++ [k]) v w
     | none =>
       if config.treat_null_as_missing && v.isNull then
         [{ path := path ++ [k], change_type := ChangeType.Unchanged
          , old_value := some Node.null, new_value := some Node.null }]
       else
         [{ path := path ++ [k], change_type := ChangeType.Removed
          , old_value := some v, new_value := none }])
      ++ diffOld config path rest fn

end

/-- Modelled from the spec: DiffStats is the tally of change_type over all
emitted Change records (spec section 4.2, step 3). -/
def tallyStats (changes : List Change) : DiffStats :=
  { added := changes.countP (fun c => decide (c.change_type = ChangeType.Added))
  , removed := changes.countP (fun c => decide (c.change_type = ChangeType.Removed))
  , modified := changes.countP (fun c => decide (c.change_type = ChangeType.Modified))
  , unchanged := changes.countP (fun c => decide (c.change_type = ChangeType.Unchanged)) }

/-- Modelled from the spec: compute_diff (declared in src/diff.rs lines
85-88 with a placeholder body) — the pure diff engine entry point; both
root nodes are present, the traversal starts at the empty path, and the
stats are tallied from the emitted changes. -/
def compute_diff (old : Node) (new : Node) (config : DiffConfig) : Diff :=
  let changes := diffBoth config [] old new
  { changes := changes, stats := tallyStats changes }

mutual

/-- Modelled from the spec: the number of leaf/path positions in the
traversal of a node — one position per scalar, summed over array elements
and object field values. -/
def leafCount : Node → Nat
  | Node.array xs => leafCountList xs
  | Node.object fields => leafCountFields fields
  | _ => 1

/-- Leaf/path positions summed over a list of nodes. -/
def leafCountList : List Node → Nat
  | [] => 0
  | x :: xs => leafCount x + leafCountList xs

/-- Leaf/path positions summed over the values of an object field list. -/
def leafCountFields : List (String × Node) → Nat
  | [] => 0
  | (_, v) :: rest => leafCount v + leafCountFields rest

end

/-- Key list with no duplicates, as a boolean predicate. -/
def keysNodup : List String → Bool
  | [] => true
  | k :: rest => !(rest.contains k) && keysNodup rest

mutual

/-- The data-model invariant of the spec, section 3: every object in the
tree has unique keys. -/
def nodeWF : Node → Bool
  | Node.array xs => nodesWF xs
  | Node.object fields => keysNodup (fields.map Prod.fst) && fieldsWF fields
  | _ => true

/-- The data-model invariant over a list of nodes. -/
def nodesWF : List Node → Bool
  | [] => true
  | x :: xs => nodeWF x && nodesWF xs

/-- The data-model invariant over the values of an object field list. -/
def fieldsWF : List (String × Node) → Bool
  | [] => true
  | (_, v) :: rest => nodeWF v && fieldsWF rest

end

/-- Whether a character is an ASCII hexadecimal digit, by code point:
0 to 9 (48-57), A to F (65-70), a to f (97-102); the embedding of the
Rust char method is_ascii_hexdigit used by src/git.rs line 216. -/
def isAsciiHexDigit (c : Char) : Bool :=
  (48 ≤ c.toNat && c.toNat ≤ 57) || (65 ≤ c.toNat && c.toNat ≤ 70) ||
    (97 ≤ c.toNat && c.toNat ≤ 102)

/-- Checks if a string looks like a git SHA-1 hash (src/git.rs lines
215-217): the UTF-8 byte length is 40 and every character is an ASCII hex
digit. -/
def is_git_hash (s : String) : Bool :=
  s.utf8ByteSize == 40 && s.data.all isAsciiHexDigit

/-- Detects the 7-argument git diff driver protocol (src/git.rs lines
178-195): the argument list must have exactly 7 elements — matched here by
the 7-element list pattern, the embedding of the length check — and the
elements at index 2 and index 5 must look like git hashes; on success the
elements at index 1 and index 4 are returned. -/
def detect_git_diff_driver_args (args : List String) : Option (String × String) :=
  match args with
  | [_, old_file, old_hex, _, new_file, new_hex, _] =>
    if !(is_git_hash old_hex) || !(is_git_hash new_hex) then none
    else some (old_file, new_file)
  | _ => none

/-- Checks if a file path represents a deleted or new file in git context
(src/git.rs lines 208-210). -/
def is_null_file (path : String) : Bool :=
  path == "/dev/null" || path == "nul" || path == "NUL"

/-- Errors that can occur during git operations (src/git.rs, enum
GitError). -/
inductive GitError where
  | commandFailed (msg : String) : GitError
  | gitNotFound : GitError
  | executableNotFound : GitError
  | gitError (msg : String) : GitError
  deriving DecidableEq

/-- The exit status of a finished process: either exited with a code or
terminated by a signal; on Unix the Rust ExitStatus reports success exactly
for exit code zero and reports no code for a signal termination. -/
inductive ExitStatus where
  | exited (code : Int) : ExitStatus
  | signaled (sig : Int) : ExitStatus
  deriving DecidableEq

/-- Whether the status is a successful exit (exit code zero). -/
def ExitStatus.success : ExitStatus → Bool
  | ExitStatus.exited 0 => true
  | _ => false

/-- The exit code, when the process exited normally. -/
def ExitStatus.code : ExitStatus → Option Int
  | ExitStatus.exited c => some c
  | ExitStatus.signaled _ => none

/-- The observable output of a spawned git process: its exit status and
its standard error already decoded to text (the lossy UTF-8 decoding of
the Rust source is absorbed into the model). -/
structure ProcOutput where
  status : ExitStatus
  stderr : String

/-- The external-process oracle: maps the argument list passed to the git
executable to the output of that invocation, or none when spawning fails
(git missing from PATH). -/
def GitWorld : Type := List String → Option ProcOutput

/-- Runs git config --global --unset for a key (src/git.rs lines 242-255):
spawn failure is GitNotFound; a non-success status whose exit code is not 5
is a GitError carrying the standard error; exit code 5 — the key does not
exist — and success are both Ok. -/
def run_git_config_unset (world : GitWorld) (key : String) : Except GitError Unit :=
  match world ["config", "--global", "--unset", key] with
  | none => Except.error GitError.gitNotFound
  | some out =>
    if !out.status.success && out.status.code != some 5 then
      Except.error (GitError.gitError out.stderr)
    else
      Except.ok ()

/-- Uninstalls sdiff from the git configuration (src/git.rs lines 94-103):
unsets the three configuration keys in order, propagating the first error;
the success-path console output of the source is irrelevant to the result
and is not modelled. -/
def uninstall (world : GitWorld) : Except GitError Unit := do
  run_git_config_unset world "difftool.sdiff.cmd"
  run_git_config_unset world "difftool.sdiff.prompt"
  run_git_config_unset world "diff.sdiff.command"

/-- Follows the wording of the spec, for comparison with is_git_hash: a
string of exactly 40 characters, each an ASCII hex digit — a decimal
digit, a lowercase letter a to f, or an uppercase letter A to F. -/
def fortyHexDigitString (s : String) : Prop :=
  s.data.length = 40 ∧
    ∀ c ∈ s.data, ('0' ≤ c ∧ c ≤ '9') ∨ ('a' ≤ c ∧ c ≤ 'f') ∨ ('A' ≤ c ∧ c ≤ 'F')

theorem tallyStats_sum (changes : List Change) :
    (tallyStats changes).added + (tallyStats changes).removed +
      (tallyStats changes).modified + (tallyStats changes).unchanged =
      changes.length := by
  induction changes with
  | nil => rfl
  | cons c rest ih =>
    simp only [tallyStats, List.countP_cons, List.length_cons] at *
    cases h : c.change_type <;> simp [h] <;> omega

/-- Claim C1: compute_diff is total — for every pair of nodes and every
configuration it returns a Diff; there is no error branch and, the model
being a total function accepted by the termination checker, no
possibility of failure on well-typed inputs. -/
theorem compute_diff_total (old : Node) (new : Node) (config : DiffConfig) :
    ∃ d : Diff, compute_diff old new config = d :=
  ⟨compute_diff old new config, rfl⟩

/-- Claim C2: for every diff produced by compute_diff, the four stat
counts tally exactly the emitted change records — their sum equals
changes.len(). -/
theorem compute_diff_stats_sum (old : Node) (new : Node) (config : DiffConfig) :
    (compute_diff old new config).stats.added +
      (compute_diff old new config).stats.removed +
      (compute_diff old new config).stats.modified +
      (compute_diff old new config).stats.unchanged =
      (compute_diff old new config).changes.length := by
  simp only [compute_diff]
  exact tallyStats_sum (diffBoth config [] old new)

/-- Claim C3: compute_diff is deterministic — two invocations on equal
inputs produce identical Diff results. -/
theorem compute_diff_deterministic (o1 n1 : Node) (c1 : DiffConfig)
    (o2 n2 : Node) (c2 : DiffConfig)
    (ho : o1 = o2) (hn : n1 = n2) (hc : c1 = c2) :
    compute_diff o1 n1 c1 = compute_diff o2 n2 c2 := by
  subst ho
  subst hn
  subst hc
  rfl

/-- Witness for claim C3 at concrete inputs. -/
theorem compute_diff_deterministic_witness :
    compute_diff (Node.bool true) Node.null DiffConfig.default =
      compute_diff (Node.bool true) Node.null DiffConfig.default :=
  compute_diff_deterministic (Node.bool true) Node.null DiffConfig.default
    (Node.bool true) Node.null DiffConfig.default rfl rfl rfl

/-- Claim C7: the Default impl of DiffConfig yields ignore_whitespace
false, treat_null_as_missing false and the Positional array strategy. -/
theorem diff_config_default_values :
    DiffConfig.default.ignore_whitespace = false ∧
      DiffConfig.default.treat_null_as_missing = false ∧
      DiffConfig.default.array_diff_strategy = ArrayDiffStrategy.Positional :=
  ⟨rfl, rfl, rfl⟩

/-- Claim C9: the Default impl of OutputOptions sets max_value_length to
80 and context_lines to 0. -/
theorem output_options_default_values :
    OutputOptions.default.max_value_length = 80 ∧
      OutputOptions.default.context_lines = 0 :=
  ⟨rfl, rfl⟩

/-- Claim C8: is_null_file returns true exactly on the three sentinel
strings /dev/null, nul and NUL. -/
theorem is_null_file_iff (path : String) :
    is_null_file path = true ↔
      (path = "/dev/null" ∨ path = "nul" ∨ path = "NUL") := by
  simp [is_null_file, or_assoc]

/-- Claim C10: detect_git_diff_driver_args validates only the argument
count and the two hash positions — for any 7 strings whose elements at
index 2 and index 5 pass the hash check, it returns the elements at index
1 and index 4, whatever the other five arguments contain. -/
theorem detect_git_diff_driver_args_only_hashes
    (a0 a1 a2 a3 a4 a5 a6 : String)
    (h2 : is_git_hash a2 = true) (h5 : is_git_hash a5 = true) :
    detect_git_diff_driver_args [a0, a1, a2, a3, a4, a5, a6] = some (a1, a4) := by
  simp [detect_git_diff_driver_args, h2, h5]

/-- Witness for claim C10: the path, file and mode arguments may all be
empty strings. -/
theorem detect_git_diff_driver_args_only_hashes_witness :
    is_git_hash "0000000000000000000000000000000000000000" = true ∧
      detect_git_diff_driver_args
        ["", "", "0000000000000000000000000000000000000000", "", "",
          "0000000000000000000000000000000000000000", ""] = some ("", "") := by
  refine ⟨by decide, ?_⟩
  exact detect_git_diff_driver_args_only_hashes "" "" _ "" "" _ ""
    (by decide) (by decide)

/-- Claim C6: during uninstall, a git config --global --unset call whose
process output is observed has its result determined by the exit status —
exit code 5, the key-not-found case, yields Ok even though the status is
unsuccessful; any other unsuccessful status is reported as a GitError
carrying the standard error; and when every one of the three keys unsets
to Ok, uninstall returns Ok. -/
theorem run_git_config_unset_key_not_found (world : GitWorld) (key : String)
    (out : ProcOutput)
    (hcall : world ["config", "--global", "--unset", key] = some out) :
    (out.status.code = some 5 → run_git_config_unset world key = Except.ok ())
    ∧ (out.status.success = false → out.status.code ≠ some 5 →
        run_git_config_unset world key =
          Except.error (GitError.gitError out.stderr))
    ∧ ((∀ k, k ∈ ["difftool.sdiff.cmd", "difftool.sdiff.prompt",
          "diff.sdiff.command"] → run_git_config_unset world k = Except.ok ()) →
        uninstall world = Except.ok ()) := by
  refine ⟨?_, ?_, ?_⟩
  · intro h5
    simp [run_git_config_unset, hcall, h5]
  · intro hs hc
    simp [run_git_config_unset, hcall, hs, hc]
  · intro hall
    have h1 := hall "difftool.sdiff.cmd" (by simp)
    have h2 := hall "difftool.sdiff.prompt" (by simp)
    have h3 := hall "diff.sdiff.command" (by simp)
    simp only [uninstall, h1, h2, h3]
    rfl

/-- Witness for claim C6: a world in which every unset exits with code 5
makes each unset, and the whole uninstall, succeed. -/
theorem run_git_config_unset_key_not_found_witness :
    run_git_config_unset (fun _ => some ⟨ExitStatus.exited 5, "key not found"⟩)
        "difftool.sdiff.cmd" = Except.ok ()
    ∧ uninstall (fun _ => some ⟨ExitStatus.exited 5, "key not found"⟩) =
        Except.ok () := by
  have h := run_git_config_unset_key_not_found
    (fun _ => some ⟨ExitStatus.exited 5, "key not found"⟩)
    "difftool.sdiff.cmd" ⟨ExitStatus.exited 5, "key not found"⟩ rfl
  refine ⟨h.1 rfl, h.2.2 ?_⟩
  intro k _
  rfl

theorem char_le_iff_toNat (a b : Char) : a ≤ b ↔ a.toNat ≤ b.toNat := by
  rw [Char.le_def, UInt32.le_def, BitVec.le_def]
  exact Iff.rfl

theorem isAsciiHexDigit_iff (c : Char) :
    isAsciiHexDigit c = true ↔
      (('0' ≤ c ∧ c ≤ '9') ∨ ('a' ≤ c ∧ c ≤ 'f') ∨ ('A' ≤ c ∧ c ≤ 'F')) := by
  have h0 : ('0').toNat = 48 := rfl
  have h9 : ('9').toNat = 57 := rfl
  have ha : ('a').toNat = 97 := rfl
  have hf : ('f').toNat = 102 := rfl
  have hA : ('A').toNat = 65 := rfl
  have hF : ('F').toNat = 70 := rfl
  simp only [isAsciiHexDigit, Bool.or_eq_true, Bool.and_eq_true, decide_eq_true_eq,
    char_le_iff_toNat, h0, h9, ha, hf, hA, hF]
  tauto

theorem utf8Size_of_asciiHex (c : Char) (h : isAsciiHexDigit c = true) :
    c.utf8Size = 1 := by
  have hle : c.toNat ≤ 127 := by
    unfold isAsciiHexDigit at h
    simp only [Bool.or_eq_true, Bool.and_eq_true, decide_eq_true_eq] at h
    omega
  unfold Char.utf8Size
  rw [if_pos]
  rw [UInt32.le_def, BitVec.le_def]
  show c.val.toBitVec.toNat ≤ 127
  exact hle

theorem utf8ByteSize_of_asciiHex (s : String)
    (h : s.data.all isAsciiHexDigit = true) : s.utf8ByteSize = s.length := by
  obtain ⟨l⟩ := s
  simp only [List.all_eq_true] at h
  simp only [String.utf8ByteSize_mk, String.length]
  induction l with
  | nil => rfl
  | cons c cs ih =>
    simp only [String.utf8Len_cons]
    rw [utf8Size_of_asciiHex c (h c (by simp)), ih (fun x hx => h x (by simp [hx]))]
    simp

theorem is_git_hash_iff (s : String) :
    is_git_hash s = true ↔ fortyHexDigitString s := by
  unfold is_git_hash fortyHexDigitString
  rw [Bool.and_eq_true, beq_iff_eq]
  constructor
  · rintro ⟨hlen, hall⟩
    have hb := utf8ByteSize_of_asciiHex s hall
    refine ⟨?_, ?_⟩
    · have : s.length = s.data.length := rfl
      omega
    · intro c hc
      exact (isAsciiHexDigit_iff c).mp (List.all_eq_true.mp hall c hc)
  · rintro ⟨hlen, hall⟩
    have hall2 : s.data.all isAsciiHexDigit = true :=
      List.all_eq_true.mpr (fun c hc => (isAsciiHexDigit_iff c).mpr (hall c hc))
    have hb := utf8ByteSize_of_asciiHex s hall2
    have : s.length = s.data.length := rfl
    exact ⟨by omega, hall2⟩

/-- Claim C5: the git diff driver detection succeeds exactly on argument
lists of exactly 7 elements whose elements at index 2 and index 5 are
each exactly 40 ASCII hex digits (the all-zero null hash included), and
on success it returns the elements at index 1 and index 4. -/
theorem detect_git_diff_driver_args_iff (args : List String) :
    ((detect_git_diff_driver_args args).isSome = true ↔
      (args.length = 7 ∧ fortyHexDigitString (args.getD 2 "") ∧
        fortyHexDigitString (args.getD 5 "")))
    ∧ ∀ old_file new_file,
        detect_git_diff_driver_args args = some (old_file, new_file) →
          old_file = args.getD 1 "" ∧ new_file = args.getD 4 "" := by
  rcases args with _ | ⟨a0, _ | ⟨a1, _ | ⟨a2, _ | ⟨a3, _ | ⟨a4, _ | ⟨a5, _ |
    ⟨a6, _ | ⟨a7, rest⟩⟩⟩⟩⟩⟩⟩⟩
  · exact ⟨by simp [detect_git_diff_driver_args], by simp [detect_git_diff_driver_args]⟩
  · exact ⟨by simp [detect_git_diff_driver_args], by simp [detect_git_diff_driver_args]⟩
  · exact ⟨by simp [detect_git_diff_driver_args], by simp [detect_git_diff_driver_args]⟩
  · exact ⟨by simp [detect_git_diff_driver_args], by simp [detect_git_diff_driver_args]⟩
  · exact ⟨by simp [detect_git_diff_driver_args], by simp [detect_git_diff_driver_args]⟩
  · exact ⟨by simp [detect_git_diff_driver_args], by simp [detect_git_diff_driver_args]⟩
  · exact ⟨by simp [detect_git_diff_driver_args], by simp [detect_git_diff_driver_args]⟩
  · by_cases h2 : is_git_hash a2 = true <;> by_cases h5 : is_git_hash a5 = true
    · refine ⟨?_, ?_⟩
      · simp only [detect_git_diff_driver_args, h2, h5]
        simp [← is_git_hash_iff, h2, h5]
      · intro old_file new_file hsome
        simp only [detect_git_diff_driver_args, h2, h5] at hsome
        simp at hsome
        simp [hsome.1.symm, hsome.2.symm]
    · refine ⟨?_, ?_⟩
      · simp only [detect_git_diff_driver_args, h2, h5]
        simp [← is_git_hash_iff, h5]
      · intro old_file new_file hsome
        simp [detect_git_diff_driver_args, h2, h5] at hsome
    · refine ⟨?_, ?_⟩
      · simp only [detect_git_diff_driver_args, h2, h5]
        simp [← is_git_hash_iff, h2]
      · intro old_file new_file hsome
        simp [detect_git_diff_driver_args, h2, h5] at hsome
    · refine ⟨?_, ?_⟩
      · simp only [detect_git_diff_driver_args, h2, h5]
        simp [← is_git_hash_iff, h2]
      · intro old_file new_file hsome
        simp [detect_git_diff_driver_args, h2, h5] at hsome
  · have hnone : detect_git_diff_driver_args
        (a0 :: a1 :: a2 :: a3 :: a4 :: a5 :: a6 :: a7 :: rest) = none := rfl
    refine ⟨?_, ?_⟩
    · simp [hnone]
    · intro old_file new_file hsome
      simp [hnone] at hsome

/-- Witness for claim C5 at a concrete well-formed 7-argument git diff
driver invocation. -/
theorem detect_git_diff_driver_args_iff_witness :
    (detect_git_diff_driver_args
        ["file.json", "/tmp/old_file", "a1b2c3d4e5f6a1b2c3d4e5f6a1b2c3d4e5f6a1b2",
          "100644", "/tmp/new_file", "b2c3d4e5f6a1b2c3d4e5f6a1b2c3d4e5f6a1b2c3",
          "100644"]).isSome = true
    ∧ "/tmp/old_file" =
        (["file.json", "/tmp/old_file", "a1b2c3d4e5f6a1b2c3d4e5f6a1b2c3d4e5f6a1b2",
          "100644", "/tmp/new_file", "b2c3d4e5f6a1b2c3d4e5f6a1b2c3d4e5f6a1b2c3",
          "100644"].getD 1 "") := by
  have h := detect_git_diff_driver_args_iff
    ["file.json", "/tmp/old_file", "a1b2c3d4e5f6a1b2c3d4e5f6a1b2c3d4e5f6a1b2",
      "100644", "/tmp/new_file", "b2c3d4e5f6a1b2c3d4e5f6a1b2c3d4e5f6a1b2c3",
      "100644"]
  refine ⟨h.1.mpr ⟨rfl, (is_git_hash_iff _).mp (by decide),
    (is_git_hash_iff _).mp (by decide)⟩, ?_⟩
  exact (h.2 "/tmp/old_file" "/tmp/new_file" (by decide)).1

theorem stringsEqual_self (config : DiffConfig) (a : String) :
    stringsEqual config a a = true := by
  unfold stringsEqual
  split <;> simp

theorem listLookup_isSome_of_mem (l : List (String × Node)) (k : String) (v : Node)
    (h : (k, v) ∈ l) : (listLookup l k).isSome = true := by
  induction l with
  | nil => simp at h
  | cons p rest ih =>
    obtain ⟨k0, v0⟩ := p
    simp only [listLookup]
    split
    · simp
    · rcases List.mem_cons.mp h with heq | hmem
      · cases heq
        simp_all
      · exact ih hmem

theorem listLookup_self_of_nodup (l : List (String × Node)) (k : String) (v : Node)
    (hnd : keysNodup (l.map Prod.fst) = true) (h : (k, v) ∈ l) :
    listLookup l k = some v := by
  induction l with
  | nil => simp at h
  | cons p rest ih =>
    obtain ⟨k0, v0⟩ := p
    simp only [List.map_cons, keysNodup, Bool.and_eq_true, Bool.not_eq_true] at hnd
    simp only [listLookup]
    rcases List.mem_cons.mp h with heq | hmem
    · cases heq
      simp
    · have hk : k ≠ k0 := by
        intro hkk
        subst hkk
        have : k ∈ rest.map Prod.fst := List.mem_map.mpr ⟨(k, v), hmem, rfl⟩
        have hcont : (rest.map Prod.fst).contains k = true := List.elem_eq_true_of_mem this
        rw [hcont] at hnd
        simp at hnd
      rw [if_neg (fun hkk => hk hkk.symm)]
      exact ih hnd.2 hmem

theorem diffNew_all_present (config : DiffConfig) (path : List String)
    (fn fo : List (String × Node))
    (h : ∀ k w, (k, w) ∈ fn → (listLookup fo k).isSome = true) :
    diffNew config path fn fo = [] := by
  induction fn with
  | nil => rfl
  | cons p rest ih =>
    obtain ⟨k, w⟩ := p
    simp only [diffNew]
    rw [if_pos (h k w (by simp)), List.nil_append]
    exact ih (fun k2 w2 hm => h k2 w2 (List.mem_cons_of_mem _ hm))

mutual

theorem diffBoth_self (config : DiffConfig) (path : List String) (x : Node)
    (h : nodeWF x = true) :
    (∀ c ∈ diffBoth config path x x, c.change_type = ChangeType.Unchanged) ∧
      (diffBoth config path x x).length = leafCount x := by
  cases x with
  | null => simp [diffBoth, leafCount]
  | bool b => simp [diffBoth, leafCount]
  | number n => simp [diffBoth, leafCount]
  | string s => simp [diffBoth, leafCount, stringsEqual_self]
  | array xs =>
    simp only [nodeWF] at h
    simpa [diffBoth, leafCount] using diffArr_self config path 0 xs h
  | object fields =>
    simp only [nodeWF, Bool.and_eq_true] at h
    have hnew : diffNew config path fields fields = [] :=
      diffNew_all_present config path fields fields
        (fun k w hm => listLookup_isSome_of_mem fields k w hm)
    have hold := diffOld_self config path fields fields h.2
      (fun k v hm => listLookup_self_of_nodup fields k v h.1 hm)
    simpa [diffBoth, leafCount, hnew] using hold

theorem diffArr_self (config : DiffConfig) (path : List String) (i : Nat)
    (xs : List Node) (h : nodesWF xs = true) :
    (∀ c ∈ diffArr config path i xs xs, c.change_type = ChangeType.Unchanged) ∧
      (diffArr config path i xs xs).length = leafCountList xs := by
  cases xs with
  | nil => simp [diffArr, leafCountList]
  | cons x rest =>
    simp only [nodesWF, Bool.and_eq_true] at h
    have h1 := diffBoth_self config (path ++ [toString i]) x h.1
    have h2 := diffArr_self config path (i + 1) rest h.2
    refine ⟨?_, ?_⟩
    · intro c hc
      simp only [diffArr, List.mem_append] at hc
      rcases hc with hc | hc
      · exact h1.1 c hc
      · exact h2.1 c hc
    · simp only [diffArr, List.length_append, leafCountList, h1.2, h2.2]

theorem diffOld_self (config : DiffConfig) (path : List String)
    (sub fields : List (String × Node)) (hwf : fieldsWF sub = true)
    (hlk : ∀ k v, (k, v) ∈ sub → listLookup fields k = some v) :
    (∀ c ∈ diffOld config path sub fields, c.change_type = ChangeType.Unchanged) ∧
      (diffOld config path sub fields).length = leafCountFields sub := by
  cases sub with
  | nil => simp [diffOld, leafCountFields]
  | cons p rest =>
    obtain ⟨k, v⟩ := p
    simp only [fieldsWF, Bool.and_eq_true] at hwf
    have hk : listLookup fields k = some v := hlk k v (by simp)
    have h1 := diffBoth_self config (path ++ [k]) v hwf.1
    have h2 := diffOld_self config path rest fields hwf.2
      (fun k2 v2 hm => hlk k2 v2 (List.mem_cons_of_mem _ hm))
    refine ⟨?_, ?_⟩
    · intro c hc
      simp only [diffOld, hk, List.mem_append] at hc
      rcases hc with hc | hc
      · exact h1.1 c hc
      · exact h2.1 c hc
    · simp only [diffOld, hk, List.length_append, leafCountFields, h1.2, h2.2]

end

theorem tally_of_unchanged (l : List Change)
    (h : ∀ c ∈ l, c.change_type = ChangeType.Unchanged) :
    tallyStats l = { added := 0, removed := 0, modified := 0, unchanged := l.length } := by
  induction l with
  | nil => rfl
  | cons c rest ih =>
    have hc := h c (by simp)
    have hrest := ih (fun c2 hm => h c2 (List.mem_cons_of_mem _ hm))
    simp only [tallyStats, List.countP_cons, List.length_cons, hc] at *
    simp only [DiffStats.mk.injEq] at hrest ⊢
    simp [hrest.1, hrest.2.1, hrest.2.2.1, hrest.2.2.2]

/-- Claim C4: diffing a tree against itself under the default
configuration yields stats with zero Added, Removed and Modified counts
and an Unchanged count equal to the number of leaf/path positions in the
traversal of the tree; the tree is required to satisfy the data-model
invariant of the spec (unique object keys). -/
theorem compute_diff_self_stats (x : Node) (h : nodeWF x = true) :
    (compute_diff x x DiffConfig.default).stats =
      { added := 0, removed := 0, modified := 0, unchanged := leafCount x } := by
  have hd := diffBoth_self DiffConfig.default [] x h
  show tallyStats (diffBoth DiffConfig.default [] x x) = _
  rw [tally_of_unchanged _ hd.1, hd.2]

/-- Witness for claim C4 at a concrete well-formed tree with three
leaf positions. -/
theorem compute_diff_self_stats_witness :
    nodeWF (Node.object [("a", Node.number (Numeric.int 1)),
        ("b", Node.array [Node.null, Node.bool true])]) = true
    ∧ (compute_diff
        (Node.object [("a", Node.number (Numeric.int 1)),
          ("b", Node.array [Node.null, Node.bool true])])
        (Node.object [("a", Node.number (Numeric.int 1)),
          ("b", Node.array [Node.null, Node.bool true])])
        DiffConfig.default).stats =
        { added := 0, removed := 0, modified := 0, unchanged := 3 } := by
  refine ⟨by decide, ?_⟩
  exact (compute_diff_self_stats _ (by decide)).trans (by decide)
